import Mathlib

/-!
# Verification of the zap-rs request-dispatch core

Shallow embedding of the routing/dispatch engine of the `zap-rs` repository.
The repository contains several drifted copies of the same core; each embedded
definition names in a comment the source file it is translated from:

* `ZapNapi.*`  — `zap-napi/src/router/trie.rs` and `zap-napi/src/router/mod.rs`
* `Napi.*`     — `napi-rs/{router,hooks,middleware,error,store,trie,types}.rs`
* `Zap.*`      — `src/{middleware,error}.rs` (the `zap_rs` crate)

Rust `HashMap<String, V>` is modelled as an association list with
replace-in-place insertion (`getAssoc` / `setAssoc`); `Result<T, E>` as
`Except E T`; async execution (which is strictly sequential per request) as
plain function application.
-/

namespace Spec2Proof

/-- Lookup in an association list, modelling `HashMap::get`. -/
def getAssoc {α : Type} : List (String × α) → String → Option α
  | [], _ => none
  | (k, v) :: rest, key => if k == key then some v else getAssoc rest key

/-- Insertion into an association list, modelling `HashMap::insert`:
the value of an existing key is replaced, a new key is appended. -/
def setAssoc {α : Type} : List (String × α) → String → α → List (String × α)
  | [], key, val => [(key, val)]
  | (k, v) :: rest, key, val =>
    if k == key then (key, val) :: rest else (k, v) :: setAssoc rest key val

/-- Splitting a character list at a separator, modelling Rust's `str::split(c)`
(which yields the pieces between separators, empty pieces included). -/
def splitChar (sep : Char) : List Char → List (List Char)
  | [] => [[]]
  | c :: rest =>
    let groups := splitChar sep rest
    if c = sep then [] :: groups
    else
      match groups with
      | g :: gs => (c :: g) :: gs
      | [] => [[c]]

/-- The `/`-segment split used by every copy of the trie:
`path.split('/').filter(|s| !s.is_empty())`. -/
def splitPath (path : String) : List String :=
  ((splitChar '/' path.toList).map (fun g => String.mk g)).filter (fun s => s ≠ "")

/-- Rust's `str::starts_with(':')`: the first character is a colon. -/
def startsWithColon (s : String) : Bool :=
  match s.toList with
  | c :: _ => c == ':'
  | [] => false

namespace ZapNapi

/-- `RouteParams` from `zap-napi/src/router/trie.rs`: a `HashMap<String, String>`
of captured parameters. -/
structure RouteParams where
  params : List (String × String)
  deriving DecidableEq, Repr

/-- `RouteParams::new`. -/
def RouteParams.new : RouteParams := ⟨[]⟩

/-- `RouteParams::insert`. -/
def RouteParams.insert (p : RouteParams) (key value : String) : RouteParams :=
  ⟨setAssoc p.params key value⟩

/-- `TrieNode` from `zap-napi/src/router/trie.rs`: static children keyed by
literal text, at most one parameter child carrying its captured name, at most
one wildcard child, and an optional handler id at route terminals. -/
inductive TrieNode : Type where
  | mk : List (String × TrieNode) → Option (String × TrieNode) → Option TrieNode →
      Option Nat → TrieNode

/-- Static children (`children` field). -/
def TrieNode.children : TrieNode → List (String × TrieNode)
  | .mk c _ _ _ => c

/-- Parameter child with its captured name (`param_child` field). -/
def TrieNode.param_child : TrieNode → Option (String × TrieNode)
  | .mk _ p _ _ => p

/-- Wildcard child (`wildcard_child` field). -/
def TrieNode.wildcard_child : TrieNode → Option TrieNode
  | .mk _ _ w _ => w

/-- Handler id if this node is a route terminal (`handler_id` field). -/
def TrieNode.handler_id : TrieNode → Option Nat
  | .mk _ _ _ h => h

/-- `TrieNode::new`. -/
def TrieNode.new : TrieNode := .mk [] none none none

/-- The segment loop of `TrieNode::insert` (`zap-napi/src/router/trie.rs`,
lines 64–102): descend into (creating if absent) the child selected by the
segment's type, and mark the final node with the handler id.  In the source
the descent mutates nodes in place (after a copy-on-write when the `Arc` is
shared); single-writer value semantics are the functional update below.
Note the loop performs no validation: a pre-existing param child keeps its
original captured name, and a `*` segment may occur anywhere. -/
def TrieNode.insertSegs : List String → Nat → TrieNode → TrieNode
  | [], handlerId, n => .mk n.children n.param_child n.wildcard_child (some handlerId)
  | seg :: rest, handlerId, n =>
    if startsWithColon seg then
      match n.param_child with
      | some (pname, c) =>
          .mk n.children (some (pname, TrieNode.insertSegs rest handlerId c))
            n.wildcard_child n.handler_id
      | none =>
          .mk n.children (some (seg.drop 1, TrieNode.insertSegs rest handlerId TrieNode.new))
            n.wildcard_child n.handler_id
    else if seg == "*" then
      match n.wildcard_child with
      | some c =>
          .mk n.children n.param_child (some (TrieNode.insertSegs rest handlerId c)) n.handler_id
      | none =>
          .mk n.children n.param_child (some (TrieNode.insertSegs rest handlerId TrieNode.new))
            n.handler_id
    else
      let child := (getAssoc n.children seg).getD TrieNode.new
      .mk (setAssoc n.children seg (TrieNode.insertSegs rest handlerId child))
        n.param_child n.wildcard_child n.handler_id

/-- `TrieNode::insert` (`zap-napi/src/router/trie.rs`, lines 55–103): an empty
path marks the node itself, otherwise the path is split on `/` and the
segments are walked. -/
def TrieNode.insert (n : TrieNode) (path : String) (handlerId : Nat) : TrieNode :=
  if path == "" then .mk n.children n.param_child n.wildcard_child (some handlerId)
  else TrieNode.insertSegs (splitPath path) handlerId n

/-- `TrieNode::find_internal` (`zap-napi/src/router/trie.rs`, lines 111–145).
At each node: try the static child for the segment first; if its subtree
yields no match, try the param child on a fresh clone of the params (binding
the segment under the captured name); finally try the wildcard child, binding
`"*"` to the remaining segments joined by `/`.  The source recurses into the
wildcard child with an empty segment slice, which immediately returns that
child's `handler_id` with the accumulated params — that one step is unfolded
here so that the recursion is structural on the segment list. -/
def TrieNode.findInternal (n : TrieNode) (segs : List String) (params : RouteParams) :
    Option (Nat × RouteParams) :=
  match segs with
  | [] => n.handler_id.map (fun id => (id, params))
  | seg :: rest =>
    let staticRes :=
      match getAssoc n.children seg with
      | some child => TrieNode.findInternal child rest params
      | none => none
    match staticRes with
    | some r => some r
    | none =>
      let paramRes :=
        match n.param_child with
        | some (pname, child) => TrieNode.findInternal child rest (params.insert pname seg)
        | none => none
      match paramRes with
      | some r => some r
      | none =>
        match n.wildcard_child with
        | some w =>
            w.handler_id.map
              (fun id => (id, params.insert "*" (String.intercalate "/" (seg :: rest))))
        | none => none

/-- `TrieNode::find` (`zap-napi/src/router/trie.rs`, lines 105–109). -/
def TrieNode.find (n : TrieNode) (path : String) : Option (Nat × RouteParams) :=
  TrieNode.findInternal n (splitPath path) RouteParams.new

/-- The `Router` of `zap-napi/src/router/mod.rs` keeps a single trie and, on
`register`, inserts under the full path `format!("{}/{}", method, path)`;
`get_handler_info` looks the same full path up.  The handler-id counter and
the per-route config map are orthogonal to routing and are omitted: handler
ids are passed explicitly. -/
def registerPath (method path : String) : String := method ++ "/" ++ path

/-- `Router::register` (`zap-napi/src/router/mod.rs`, lines 67–79), restricted
to its routing effect. -/
def routerRegister (routes : TrieNode) (method path : String) (handlerId : Nat) : TrieNode :=
  routes.insert (registerPath method path) handlerId

/-- `Router::get_handler_info` (`zap-napi/src/router/mod.rs`, lines 82–89),
restricted to its routing effect. -/
def routerLookup (routes : TrieNode) (method path : String) : Option (Nat × RouteParams) :=
  routes.find (registerPath method path)

/-- The static branch of `find_internal` in isolation: descend into the static
child for the segment, if any. -/
def staticAttempt (n : TrieNode) (seg : String) (rest : List String) (params : RouteParams) :
    Option (Nat × RouteParams) :=
  match getAssoc n.children seg with
  | some child => child.findInternal rest params
  | none => none

/-- The param branch of `find_internal` in isolation: descend into the param
child, binding the segment under the captured name. -/
def paramAttempt (n : TrieNode) (seg : String) (rest : List String) (params : RouteParams) :
    Option (Nat × RouteParams) :=
  match n.param_child with
  | some (pname, child) => child.findInternal rest (params.insert pname seg)
  | none => none

/-- The wildcard branch of `find_internal` in isolation: consume all remaining
segments, binding `"*"` to their `/`-join, and return the wildcard child's
handler. -/
def wildcardAttempt (n : TrieNode) (segs : List String) (params : RouteParams) :
    Option (Nat × RouteParams) :=
  match n.wildcard_child with
  | some w =>
      w.handler_id.map (fun id => (id, params.insert "*" (String.intercalate "/" segs)))
  | none => none

/-- `MatchRoute n segs id bs`: descending from `n` along the path segments
`segs` there is a route terminating in handler `id`, and `bs` lists, in order,
exactly the parameter bindings that route makes (one per `Param` segment it
traverses, plus the `"*"` capture if it ends in a wildcard). -/
inductive MatchRoute : TrieNode → List String → Nat → List (String × String) → Prop where
  | term {n : TrieNode} {id : Nat} :
      n.handler_id = some id → MatchRoute n [] id []
  | stat {n c : TrieNode} {seg : String} {rest : List String} {id : Nat}
      {bs : List (String × String)} :
      getAssoc n.children seg = some c → MatchRoute c rest id bs →
      MatchRoute n (seg :: rest) id bs
  | par {n c : TrieNode} {pname seg : String} {rest : List String} {id : Nat}
      {bs : List (String × String)} :
      n.param_child = some (pname, c) → MatchRoute c rest id bs →
      MatchRoute n (seg :: rest) id ((pname, seg) :: bs)
  | wild {n w : TrieNode} {seg : String} {rest : List String} {id : Nat} :
      n.wildcard_child = some w → w.handler_id = some id →
      MatchRoute n (seg :: rest) id [("*", String.intercalate "/" (seg :: rest))]

/-- A pattern segment paired with the concrete path segment that should match
it: a static literal matches itself, a param segment (given by its raw text,
e.g. `":id"`) matches an arbitrary value. -/
inductive PatSeg : Type where
  | stat (s : String)
  | par (seg val : String)

/-- The pattern-side text of a `PatSeg`. -/
def PatSeg.patStr : PatSeg → String
  | .stat s => s
  | .par seg _ => seg

/-- The path-side text of a `PatSeg`. -/
def PatSeg.pathStr : PatSeg → String
  | .stat s => s
  | .par _ v => v

/-- Well-formedness of a `PatSeg`: a static literal is not itself a param or
wildcard marker, a param segment starts with `:`. -/
def PatSeg.ok : PatSeg → Prop
  | .stat s => startsWithColon s = false ∧ s ≠ "*"
  | .par seg _ => startsWithColon seg = true

/-- The parameter bindings a list of `PatSeg`s induces. -/
def patBindings : List PatSeg → List (String × String)
  | [] => []
  | .stat _ :: rest => patBindings rest
  | .par seg val :: rest => (seg.drop 1, val) :: patBindings rest

/-- The segments of the registered pattern: the `PatSeg` texts, followed by a
final `*` when a wildcard tail is present. -/
def patSegsOf (pre : List PatSeg) (w : Option (List String)) : List String :=
  pre.map PatSeg.patStr ++ (match w with | some _ => ["*"] | none => [])

/-- The segments of the concrete request path: the `PatSeg` values, followed
by the wildcard tail's segments. -/
def pathSegsOf (pre : List PatSeg) (w : Option (List String)) : List String :=
  pre.map PatSeg.pathStr ++ (match w with | some tail => tail | none => [])

/-- The expected bindings of the round trip: one per param segment, plus the
`"*"` capture of the joined wildcard tail. -/
def expectedBindings (pre : List PatSeg) (w : Option (List String)) :
    List (String × String) :=
  patBindings pre ++
    (match w with
     | some tail => [("*", String.intercalate "/" tail)]
     | none => [])

end ZapNapi

namespace Napi

/-- `Error` from `napi-rs/error.rs` (lines 6–12). -/
inductive Error : Type where
  | RouteNotFound (path : String)
  | Internal (msg : String)
  | InvalidRequest (msg : String)
  | HandlerError (msg : String)
  deriving DecidableEq, Repr

/-- `Error::status_code` from `napi-rs/error.rs` (lines 23–30), with
`hyper::StatusCode` modelled by its numeric value. -/
def Error.statusCode : Error → Nat
  | .RouteNotFound _ => 404
  | .Internal _ => 500
  | .InvalidRequest _ => 400
  | .HandlerError _ => 500

/-- The `Display` implementation of `Error` from `napi-rs/error.rs`
(lines 48–57). -/
def Error.display : Error → String
  | .RouteNotFound path => "Route not found: " ++ path
  | .Internal msg => "Internal error: " ++ msg
  | .InvalidRequest msg => "Invalid request: " ++ msg
  | .HandlerError msg => "Handler error: " ++ msg

/-- `hyper::Request`, restricted to what the dispatch core reads: the URI path
and the URI query string (headers and body are opaque to routing). -/
structure Request where
  method : String
  path : String
  query : Option String
  deriving DecidableEq, Repr

/-- `hyper::Response`, restricted to status and body. -/
structure Response where
  status : Nat
  body : String
  deriving DecidableEq, Repr

/-- `Response::new(body)` carries status 200. -/
def Response.new (body : String) : Response := ⟨200, body⟩

/-- `RouteParams` from `napi-rs/types.rs` (lines 8–12): path parameters and
query parameters live in two separate maps. -/
structure RouteParams where
  path_params : List (String × String)
  query_params : List (String × String)
  deriving DecidableEq, Repr

/-- `RouteParams::new`. -/
def RouteParams.new : RouteParams := ⟨[], []⟩

/-- A `Handle` from `napi-rs/handle.rs`: `Request -> Result<Response, Error>`
(the boxed future is sequential per request). -/
def Handler : Type := Request → Except Error Response

/-- `TrieNode<T>` from `napi-rs/trie.rs` (lines 3–9): optional value, static
children, optional param child, optional wildcard child, and the `is_param`
marker. -/
inductive TrieNode (α : Type) : Type where
  | mk : Option α → List (String × TrieNode α) → Option (TrieNode α) →
      Option (TrieNode α) → Bool → TrieNode α

/-- Stored value (`value` field). -/
def TrieNode.value {α} : TrieNode α → Option α
  | .mk v _ _ _ _ => v

/-- Static children (`children` field). -/
def TrieNode.children {α} : TrieNode α → List (String × TrieNode α)
  | .mk _ c _ _ _ => c

/-- Param child (`param_child` field). -/
def TrieNode.param_child {α} : TrieNode α → Option (TrieNode α)
  | .mk _ _ p _ _ => p

/-- Wildcard child (`wildcard` field). -/
def TrieNode.wildcard {α} : TrieNode α → Option (TrieNode α)
  | .mk _ _ _ w _ => w

/-- `is_param` marker. -/
def TrieNode.is_param {α} : TrieNode α → Bool
  | .mk _ _ _ _ b => b

/-- `TrieNode::new` from `napi-rs/trie.rs`. -/
def TrieNode.new {α : Type} : TrieNode α := .mk none [] none none false

/-- `TrieNode::insert_segments` from `napi-rs/trie.rs` (lines 30–69).  Note
the wildcard branch: it creates the wildcard child carrying the value only
when absent, never recurses below it, and leaves an existing wildcard child
untouched. -/
def TrieNode.insertSegments {α} : TrieNode α → List String → α → TrieNode α
  | n, [], v => .mk (some v) n.children n.param_child n.wildcard n.is_param
  | n, seg :: rest, v =>
    if startsWithColon seg then
      let pc := match n.param_child with
        | some c => c
        | none => TrieNode.mk none [] none none true
      .mk n.value n.children (some (pc.insertSegments rest v)) n.wildcard n.is_param
    else if seg == "*" then
      match n.wildcard with
      | some _ => n
      | none => .mk n.value n.children n.param_child (some (.mk (some v) [] none none false))
          n.is_param
    else
      let child := (getAssoc n.children seg).getD TrieNode.new
      .mk n.value (setAssoc n.children seg (child.insertSegments rest v)) n.param_child
        n.wildcard n.is_param

/-- `TrieNode::insert` from `napi-rs/trie.rs` (lines 22–28). -/
def TrieNode.insert {α} (n : TrieNode α) (path : String) (v : α) : TrieNode α :=
  n.insertSegments (splitPath path) v

/-- `TrieNode::lookup_segments` from `napi-rs/trie.rs` (lines 79–108).  The
params map is passed by mutable reference in the source, so insertions made
while exploring a branch persist even when that branch fails; the state is
threaded accordingly.  The param branch only records a binding when the
*current* node is marked `is_param`, and then inserts the segment under its
own text; the wildcard branch returns the wildcard child's value without
consuming or checking the remaining segments. -/
def TrieNode.lookupSegments {α} :
    TrieNode α → List String → List (String × String) →
      Option α × List (String × String)
  | n, [], params => (n.value, params)
  | n, seg :: rest, params =>
    let static_step :=
      match getAssoc n.children seg with
      | some child => child.lookupSegments rest params
      | none => (none, params)
    match static_step with
    | (some v, params1) => (some v, params1)
    | (none, params1) =>
      let param_step :=
        match n.param_child with
        | some pc =>
            let params2 := if n.is_param then setAssoc params1 seg seg else params1
            pc.lookupSegments rest params2
        | none => (none, params1)
      match param_step with
      | (some v, params3) => (some v, params3)
      | (none, params3) =>
        ((match n.wildcard with | some w => w.value | none => none), params3)

/-- `TrieNode::lookup` from `napi-rs/trie.rs` (lines 71–77). -/
def TrieNode.lookup {α} (n : TrieNode α) (path : String)
    (params : List (String × String)) : Option α × List (String × String) :=
  n.lookupSegments (splitPath path) params

/-- `Store` from `napi-rs/store.rs`: a map from HTTP method to a trie of
handlers. -/
structure Store where
  routes : List (String × TrieNode Handler)

/-- `Store::new`. -/
def Store.new : Store := ⟨[]⟩

/-- `Store::register` from `napi-rs/store.rs` (lines 19–24); the method
defaults to GET in the source. -/
def Store.register (s : Store) (path : String) (h : Handler) : Except Error Store :=
  let trie := (getAssoc s.routes "GET").getD TrieNode.new
  .ok ⟨setAssoc s.routes "GET" (trie.insert path h)⟩

/-- `Store::lookup` from `napi-rs/store.rs` (lines 32–39): looks the path up
in the GET trie, filling `params.path_params`. -/
def Store.lookup (s : Store) (path : String) (params : RouteParams) :
    Except Error (Option Handler × RouteParams) :=
  match getAssoc s.routes "GET" with
  | some trie =>
      let res := trie.lookup path params.path_params
      .ok (res.1, { params with path_params := res.2 })
  | none => .ok (none, params)

/-- A middleware from `napi-rs/middleware.rs` (the `Middleware` trait):
`handle(req, next) -> Result<Response, Error>`. -/
def Middleware : Type := Request → (Request → Except Error Response) → Except Error Response

/-- The `while let Some(middleware) = chain.pop()` loop of
`MiddlewareChain::compose` (`napi-rs/middleware.rs`, lines 43–63): each step
wraps the accumulated `next_fn` in the next middleware taken from the list. -/
def composeLoop : List Middleware → (Request → Except Error Response) →
    (Request → Except Error Response)
  | [], next => next
  | m :: ms, next => composeLoop ms (fun req => m req next)

/-- `MiddlewareChain::compose` from `napi-rs/middleware.rs` (lines 37–66).
The source first reverses the registration list and then pops elements from
the *back* of that reversed vector, so the loop consumes the middlewares in
registration order; `composeLoop` iterates them in that same order. -/
def MiddlewareChain.compose (mws : List Middleware) (handler : Request → Except Error Response) :
    Request → Except Error Response :=
  composeLoop mws handler

/-- `Hooks` from `napi-rs/hooks.rs` (lines 14–18): three independent ordered
hook lists. -/
structure Hooks where
  pre_routing : List (Request → Except Error Request)
  post_handler : List (Response → Except Error Response)
  error_hooks : List (Error → Except Error Response)

/-- `Hooks::new`. -/
def Hooks.new : Hooks := ⟨[], [], []⟩

/-- The loop of `Hooks::execute_pre_routing` (`napi-rs/hooks.rs`, lines
29–35): each hook receives the request produced by the previous one; the
first failure aborts the sequence. -/
def runPreRouting : List (Request → Except Error Request) → Request → Except Error Request
  | [], req => .ok req
  | hook :: rest, req =>
    match hook req with
    | .ok req2 => runPreRouting rest req2
    | .error e => .error e

/-- The loop of `Hooks::execute_post_handler` (`napi-rs/hooks.rs`, lines
37–43). -/
def runPostHandler : List (Response → Except Error Response) → Response → Except Error Response
  | [], resp => .ok resp
  | hook :: rest, resp =>
    match hook resp with
    | .ok resp2 => runPostHandler rest resp2
    | .error e => .error e

/-- The loop of `Hooks::execute_error_hooks` (`napi-rs/hooks.rs`, lines
45–54): the first hook to succeed short-circuits with its response; a hook's
failure becomes the new current error handed to the next hook; if no hook
succeeds the final error is returned. -/
def runErrorHooks : List (Error → Except Error Response) → Error → Except Error Response
  | [], err => .error err
  | hook :: rest, err =>
    match hook err with
    | .ok resp => .ok resp
    | .error e => runErrorHooks rest e

/-- `Hooks::execute_pre_routing`. -/
def Hooks.executePreRouting (h : Hooks) (req : Request) : Except Error Request :=
  runPreRouting h.pre_routing req

/-- `Hooks::execute_post_handler`. -/
def Hooks.executePostHandler (h : Hooks) (resp : Response) : Except Error Response :=
  runPostHandler h.post_handler resp

/-- `Hooks::execute_error_hooks`. -/
def Hooks.executeErrorHooks (h : Hooks) (err : Error) : Except Error Response :=
  runErrorHooks h.error_hooks err

/-- The error produced by threading `err` through a list of error hooks that
all fail: each hook's failure replaces the current error. -/
def foldFailures (hooks : List (Error → Except Error Response)) (err : Error) : Error :=
  hooks.foldl
    (fun cur hook =>
      match hook cur with
      | .error e => e
      | .ok _ => cur)
    err

/-- `Router` from `napi-rs/router.rs` (lines 11–15). -/
structure Router where
  store : Store
  middleware : Option (List Middleware)
  hooks : Option Hooks

/-- `Router::new`. -/
def Router.new : Router := ⟨Store.new, none, none⟩

/-- `Router::get` from `napi-rs/router.rs` (lines 26–34), restricted to its
routing effect. -/
def Router.get (r : Router) (path : String) (h : Handler) : Except Error Router :=
  match r.store.register path h with
  | .ok s => .ok { r with store := s }
  | .error e => .error e

/-- Scan for the first `=`, accumulating the key's characters. -/
def splitOnceEqAux : List Char → List Char → Option (String × String)
  | [], _ => none
  | c :: rest, acc =>
    if c = '=' then some (String.mk acc.reverse, String.mk rest)
    else splitOnceEqAux rest (c :: acc)

/-- Rust's `str::split_once('=')`: split at the first `=`, if any. -/
def splitOnceEq (s : String) : Option (String × String) :=
  splitOnceEqAux s.toList []

/-- The query-parsing loop of `Router::handle` (`napi-rs/router.rs`, lines
69–76): split the query on `&`, and insert every `key=value` pair (split at
the first `=`; pairs without `=` are skipped) into `query_params`. -/
def mergeQuery (params : RouteParams) (query : Option String) : RouteParams :=
  match query with
  | none => params
  | some q =>
    { params with
        query_params :=
          ((splitChar '&' q.toList).map (fun g => String.mk g)).foldl
            (fun acc pair =>
              match splitOnceEq pair with
              | some kv => setAssoc acc kv.1 kv.2
              | none => acc)
            params.query_params }

/-- The `key=value` pairs of a query string, in order: the query split on
`&`, each piece split at its first `=` (pieces without `=` dropped). -/
def queryPairs (q : String) : List (String × String) :=
  ((splitChar '&' q.toList).map (fun g => String.mk g)).filterMap splitOnceEq

/-- The route-matching step of `Router::handle` (`napi-rs/router.rs`, lines
62–76): look the path up in the store, filling the path params; an unmatched
path is `RouteNotFound`; on a match, parse the query string of the request
into the `query_params` of the same `RouteParams` value. -/
def Router.routeStep (r : Router) (req : Request) :
    Except Error (Handler × RouteParams) :=
  match Store.lookup r.store req.path RouteParams.new with
  | .error e => .error e
  | .ok (none, _) => .error (.RouteNotFound req.path)
  | .ok (some handler, params) => .ok (handler, mergeQuery params req.query)

/-- `Router::handle` from `napi-rs/router.rs` (lines 54–106): run the
pre-routing hooks (a failure propagates as the result), match the route
(`RouteNotFound` propagates as the result), run the middleware-composed
handler (or the bare handler when no chain is installed), then on success run
the post-handler hooks, and on failure run the error hooks when installed, or
else synthesize a default response from the error's status code and display
text. -/
def Router.handle (r : Router) (req : Request) : Except Error Response :=
  let pre :=
    match r.hooks with
    | some hooks => hooks.executePreRouting req
    | none => .ok req
  match pre with
  | .error e => .error e
  | .ok req2 =>
    match r.routeStep req2 with
    | .error e => .error e
    | .ok (handler, _params) =>
      let result :=
        match r.middleware with
        | some mws => MiddlewareChain.compose mws handler req2
        | none => handler req2
      match result with
      | .ok resp =>
        match r.hooks with
        | some hooks => hooks.executePostHandler resp
        | none => .ok resp
      | .error err =>
        match r.hooks with
        | some hooks => hooks.executeErrorHooks err
        | none => .ok { status := err.statusCode, body := "Error: " ++ err.display }

end Napi

namespace Zap

/-- `Error` from `src/error.rs` (lines 3–22) of the `zap_rs` crate. -/
inductive Error : Type where
  | RouteNotFound (msg : String)
  | InvalidRoutePattern (msg : String)
  | MiddlewareError (msg : String)
  | Internal (msg : String)
  | Hyper (msg : String)
  | Io (msg : String)
  deriving DecidableEq, Repr

/-- `Error::status_code` from `src/error.rs` (lines 36–48), with
`hyper::StatusCode` modelled by its numeric value. -/
def Error.statusCode : Error → Nat
  | .RouteNotFound _ => 404
  | .InvalidRoutePattern _ => 400
  | .MiddlewareError _ => 500
  | .Internal _ => 500
  | .Hyper _ => 500
  | .Io _ => 500

/-- `MiddlewareChain` from `src/middleware.rs` (lines 10–13), generic over the
request type `ρ` and the result type `σ` (in the source,
`Request<Body>` and `BoxFuture<Result<Response, Error>>`): a middleware
receives the request and the continuation for the rest of the chain. -/
structure MiddlewareChain (ρ σ : Type) where
  middlewares : List (ρ → (ρ → σ) → σ)

/-- The chain-building loop of `MiddlewareChain::execute` (`src/middleware.rs`,
lines 31–53): the registered middlewares are visited from the highest index
down to 0, each step wrapping the chain accumulated so far. -/
def composeRev {ρ σ : Type} : List (ρ → (ρ → σ) → σ) → (ρ → σ) → (ρ → σ)
  | [], chain => chain
  | m :: ms, chain => composeRev ms (fun req => m req chain)

/-- `MiddlewareChain::execute` from `src/middleware.rs` (lines 27–57): build
the chain from back to front, starting from the terminal handler, then invoke
it on the request. -/
def MiddlewareChain.execute {ρ σ : Type} (c : MiddlewareChain ρ σ) (req : ρ)
    (handler : ρ → σ) : σ :=
  (composeRev c.middlewares.reverse handler) req

end Zap

/-! ## Helper lemmas -/

@[simp]
theorem getAssoc_setAssoc_self {α : Type} (l : List (String × α)) (k : String) (v : α) :
    getAssoc (setAssoc l k v) k = some v := by
  induction l with
  | nil => simp [getAssoc, setAssoc]
  | cons kv rest ih =>
    obtain ⟨k', v'⟩ := kv
    by_cases h : k' == k
    · simp [getAssoc, setAssoc, h]
    · simp only [setAssoc, h, Bool.false_eq_true, if_false, getAssoc]
      simp only [getAssoc, h, Bool.false_eq_true, if_false, ih]

@[simp]
theorem setAssoc_setAssoc_self {α : Type} (l : List (String × α)) (k : String) (v w : α) :
    setAssoc (setAssoc l k v) k w = setAssoc l k w := by
  induction l with
  | nil => simp [setAssoc]
  | cons kv rest ih =>
    obtain ⟨k', v'⟩ := kv
    by_cases h : k' == k
    · simp [setAssoc, h]
    · simp only [setAssoc, h, Bool.false_eq_true, if_false, ih]

namespace ZapNapi

@[simp]
theorem TrieNode.children_mk (c : List (String × TrieNode)) (p : Option (String × TrieNode))
    (w : Option TrieNode) (h : Option Nat) : (TrieNode.mk c p w h).children = c := rfl

@[simp]
theorem TrieNode.param_child_mk (c : List (String × TrieNode)) (p : Option (String × TrieNode))
    (w : Option TrieNode) (h : Option Nat) : (TrieNode.mk c p w h).param_child = p := rfl

@[simp]
theorem TrieNode.wildcard_child_mk (c : List (String × TrieNode)) (p : Option (String × TrieNode))
    (w : Option TrieNode) (h : Option Nat) : (TrieNode.mk c p w h).wildcard_child = w := rfl

@[simp]
theorem TrieNode.handler_id_mk (c : List (String × TrieNode)) (p : Option (String × TrieNode))
    (w : Option TrieNode) (h : Option Nat) : (TrieNode.mk c p w h).handler_id = h := rfl

/-- `find_internal` on a non-empty segment list is exactly the precedence
chain of the three attempts. -/
theorem TrieNode.findInternal_cons (n : TrieNode) (seg : String) (rest : List String)
    (params : RouteParams) :
    TrieNode.findInternal n (seg :: rest) params =
      match staticAttempt n seg rest params with
      | some r => some r
      | none =>
        match paramAttempt n seg rest params with
        | some r => some r
        | none => wildcardAttempt n (seg :: rest) params := rfl

/-- Inserting the same segment list twice leaves no trace of the first
insertion: the tree is identical to the one obtained by the second insertion
alone. -/
theorem TrieNode.insertSegs_insertSegs (segs : List String) (h1 h2 : Nat) (t : TrieNode) :
    TrieNode.insertSegs segs h2 (TrieNode.insertSegs segs h1 t) =
      TrieNode.insertSegs segs h2 t := by
  induction segs generalizing t with
  | nil => rfl
  | cons seg rest ih =>
    by_cases hc : startsWithColon seg
    · cases hp : t.param_child with
      | none => simp [TrieNode.insertSegs, hc, hp, ih]
      | some pc => cases pc with
        | mk pname c => simp [TrieNode.insertSegs, hc, hp, ih]
    · by_cases hw : seg == "*"
      · cases hz : t.wildcard_child with
        | none => simp [TrieNode.insertSegs, hc, hw, hz, ih]
        | some c => simp [TrieNode.insertSegs, hc, hw, hz, ih]
      · simp [TrieNode.insertSegs, hc, hw, ih]

/-- Inserting the same raw path twice equals inserting it once with the last
handler. -/
theorem TrieNode.insert_insert (t : TrieNode) (path : String) (h1 h2 : Nat) :
    (t.insert path h1).insert path h2 = t.insert path h2 := by
  by_cases he : path == ""
  · simp [TrieNode.insert, he]
  · simp [TrieNode.insert, he, TrieNode.insertSegs_insertSegs]

end ZapNapi

/-! ## Claim theorems -/

open ZapNapi in
/-- Claim C1: Trie lookup resolves each path segment with fixed precedence
static > param > wildcard, and this precedence holds with backtracking: a
static winner is returned; if the static subtree fails, the param child is
tried with the segment bound under its captured name; if that also fails, the
wildcard child is tried at the same node.  Concretely, with `GET /users/me`
and `GET /users/:id` registered, `/users/me` hits the static route and
`/users/42` hits the param route with `{id: "42"}`; and with
`GET /users/me/profile` and `GET /users/:id` registered, `/users/me` enters
the static child `me`, fails there, and backtracks to the param route. -/
theorem c1_lookup_precedence_with_backtracking :
    (∀ (n : TrieNode) (seg : String) (rest : List String) (params : RouteParams)
        (r : Nat × RouteParams),
        staticAttempt n seg rest params = some r →
        TrieNode.findInternal n (seg :: rest) params = some r)
    ∧ (∀ (n : TrieNode) (seg : String) (rest : List String) (params : RouteParams)
        (r : Nat × RouteParams),
        staticAttempt n seg rest params = none →
        paramAttempt n seg rest params = some r →
        TrieNode.findInternal n (seg :: rest) params = some r)
    ∧ (∀ (n : TrieNode) (seg : String) (rest : List String) (params : RouteParams),
        staticAttempt n seg rest params = none →
        paramAttempt n seg rest params = none →
        TrieNode.findInternal n (seg :: rest) params =
          wildcardAttempt n (seg :: rest) params)
    ∧ routerLookup (routerRegister (routerRegister TrieNode.new "GET" "/users/me" 1)
        "GET" "/users/:id" 2) "GET" "/users/me" = some (1, ⟨[]⟩)
    ∧ routerLookup (routerRegister (routerRegister TrieNode.new "GET" "/users/me" 1)
        "GET" "/users/:id" 2) "GET" "/users/42" = some (2, ⟨[("id", "42")]⟩)
    ∧ routerLookup (routerRegister (routerRegister TrieNode.new "GET" "/users/me/profile" 1)
        "GET" "/users/:id" 2) "GET" "/users/me" = some (2, ⟨[("id", "me")]⟩) := by
  refine ⟨?_, ?_, ?_, by decide, by decide, by decide⟩
  · intro n seg rest params r hs
    rw [TrieNode.findInternal_cons, hs]
  · intro n seg rest params r hs hp
    rw [TrieNode.findInternal_cons, hs, hp]
  · intro n seg rest params hs hp
    rw [TrieNode.findInternal_cons, hs, hp]

open ZapNapi in
/-- Witness for C1: a concrete node whose static child exists for the segment
but whose subtree fails, whose param child is absent, and whose lookup
therefore falls through to the wildcard attempt. -/
theorem c1_lookup_precedence_with_backtracking_witness :
    (staticAttempt (TrieNode.mk [("a", TrieNode.new)] none
        (some (TrieNode.mk [] none none (some 9))) none) "a" [] ⟨[]⟩ = none
      ∧ paramAttempt (TrieNode.mk [("a", TrieNode.new)] none
        (some (TrieNode.mk [] none none (some 9))) none) "a" [] ⟨[]⟩ = none)
    ∧ TrieNode.findInternal (TrieNode.mk [("a", TrieNode.new)] none
        (some (TrieNode.mk [] none none (some 9))) none) ["a"] ⟨[]⟩ =
      wildcardAttempt (TrieNode.mk [("a", TrieNode.new)] none
        (some (TrieNode.mk [] none none (some 9))) none) ["a"] ⟨[]⟩ :=
  ⟨⟨by decide, by decide⟩,
    c1_lookup_precedence_with_backtracking.2.2.1
      (TrieNode.mk [("a", TrieNode.new)] none (some (TrieNode.mk [] none none (some 9))) none)
      "a" [] ⟨[]⟩ (by decide) (by decide)⟩

open ZapNapi in
/-- Claim C9: Last registration wins: re-inserting the same pattern leaves a
tree identical to the one produced by the second insertion alone, so the
earlier handler is unreachable; concretely, registering `GET /users/:id`
twice makes a lookup of `/users/7` return the second handler. -/
theorem c9_last_registration_wins :
    (∀ (segs : List String) (h1 h2 : Nat) (t : TrieNode),
        TrieNode.insertSegs segs h2 (TrieNode.insertSegs segs h1 t) =
          TrieNode.insertSegs segs h2 t)
    ∧ (∀ (t : TrieNode) (method path : String) (h1 h2 : Nat),
        routerRegister (routerRegister t method path h1) method path h2 =
          routerRegister t method path h2)
    ∧ routerLookup (routerRegister (routerRegister TrieNode.new "GET" "/users/:id" 1)
        "GET" "/users/:id" 2) "GET" "/users/7" = some (2, ⟨[("id", "7")]⟩) :=
  ⟨TrieNode.insertSegs_insertSegs,
    fun t method path h1 h2 => TrieNode.insert_insert t (registerPath method path) h1 h2,
    by decide⟩

open ZapNapi in
/-- Claim C3: When lookup falls through to a wildcard child, the wildcard
consumes all remaining path segments, the walk terminates immediately, and
the capture bound for `"*"` is the remaining path joined by `/`; with
`GET /files/*` registered, `/files/a/b/c.txt` matches with wildcard capture
`"a/b/c.txt"`. -/
theorem c3_wildcard_consumes_all_remaining_segments :
    (∀ (n w : TrieNode) (seg : String) (rest : List String) (params : RouteParams),
        n.wildcard_child = some w →
        staticAttempt n seg rest params = none →
        paramAttempt n seg rest params = none →
        TrieNode.findInternal n (seg :: rest) params =
          w.handler_id.map (fun id =>
            (id, params.insert "*" (String.intercalate "/" (seg :: rest)))))
    ∧ routerLookup (routerRegister TrieNode.new "GET" "/files/*" 3) "GET" "/files/a/b/c.txt" =
        some (3, ⟨[("*", "a/b/c.txt")]⟩) := by
  refine ⟨?_, by decide⟩
  intro n w seg rest params hw hs hp
  rw [TrieNode.findInternal_cons, hs, hp]
  simp [wildcardAttempt, hw]

open ZapNapi in
/-- Witness for C3: a node with only a wildcard child, looked up with two
remaining segments. -/
theorem c3_wildcard_consumes_all_remaining_segments_witness :
    TrieNode.findInternal (TrieNode.mk [] none (some (TrieNode.mk [] none none (some 9))) none)
        ["a", "b"] ⟨[]⟩ =
      (TrieNode.mk [] none none (some 9) : TrieNode).handler_id.map (fun id =>
        (id, RouteParams.insert ⟨[]⟩ "*" (String.intercalate "/" ["a", "b"]))) :=
  c3_wildcard_consumes_all_remaining_segments.1
    (TrieNode.mk [] none (some (TrieNode.mk [] none none (some 9))) none)
    (TrieNode.mk [] none none (some 9)) "a" ["b"] ⟨[]⟩ rfl (by decide) (by decide)

namespace ZapNapi

/-- Whenever `find_internal` succeeds, the returned params are exactly the
incoming params extended by the bindings of an actual route of the tree — one
binding per param segment traversed, plus the `"*"` capture for a wildcard
ending; bindings attempted on branches that failed leave no residue. -/
theorem TrieNode.findInternal_exact_bindings (segs : List String) :
    ∀ (n : TrieNode) (params : RouteParams) (id : Nat) (ps : RouteParams),
      TrieNode.findInternal n segs params = some (id, ps) →
      ∃ bs, MatchRoute n segs id bs ∧
        ps = ⟨bs.foldl (fun a kv => setAssoc a kv.1 kv.2) params.params⟩ := by
  induction segs with
  | nil =>
    intro n params id ps hfind
    cases hh : n.handler_id with
    | none => simp [TrieNode.findInternal, hh] at hfind
    | some i =>
      simp only [TrieNode.findInternal, hh, Option.map_some'] at hfind
      obtain ⟨rfl, rfl⟩ : i = id ∧ params = ps := by simpa using hfind
      exact ⟨[], MatchRoute.term hh, by cases params; rfl⟩
  | cons seg rest ih =>
    intro n params id ps hfind
    rw [TrieNode.findInternal_cons] at hfind
    cases hs : staticAttempt n seg rest params with
    | some r =>
      rw [hs] at hfind
      obtain rfl : r = (id, ps) := by simpa using hfind
      unfold staticAttempt at hs
      cases hg : getAssoc n.children seg with
      | none => rw [hg] at hs; exact absurd hs (by simp)
      | some child =>
        rw [hg] at hs
        obtain ⟨bs, hm, hps⟩ := ih child params id ps hs
        exact ⟨bs, MatchRoute.stat hg hm, hps⟩
    | none =>
      rw [hs] at hfind
      cases hp : paramAttempt n seg rest params with
      | some r =>
        rw [hp] at hfind
        obtain rfl : r = (id, ps) := by simpa using hfind
        unfold paramAttempt at hp
        cases hpc : n.param_child with
        | none => rw [hpc] at hp; exact absurd hp (by simp)
        | some pc =>
          obtain ⟨pname, child⟩ := pc
          rw [hpc] at hp
          obtain ⟨bs, hm, hps⟩ := ih child (params.insert pname seg) id ps hp
          exact ⟨(pname, seg) :: bs, MatchRoute.par hpc hm, by
            simpa [RouteParams.insert] using hps⟩
      | none =>
        rw [hp] at hfind
        have hfind2 : wildcardAttempt n (seg :: rest) params = some (id, ps) := hfind
        cases hw : n.wildcard_child with
        | none =>
          rw [show wildcardAttempt n (seg :: rest) params = none by
            unfold wildcardAttempt; rw [hw]] at hfind2
          exact absurd hfind2 (by simp)
        | some w =>
          have hfind3 : w.handler_id.map (fun i =>
              (i, params.insert "*" (String.intercalate "/" (seg :: rest)))) = some (id, ps) := by
            rw [← hfind2]; unfold wildcardAttempt; rw [hw]
          cases hi : w.handler_id with
          | none => rw [hi] at hfind3; exact absurd hfind3 (by simp)
          | some i =>
            rw [hi, Option.map_some'] at hfind3
            obtain ⟨rfl, rfl⟩ :
                i = id ∧ params.insert "*" (String.intercalate "/" (seg :: rest)) = ps := by
              simpa using hfind3
            exact ⟨[("*", String.intercalate "/" (seg :: rest))],
              MatchRoute.wild hw hi, rfl⟩

/-- Inserting a static-literal pattern head into an empty node creates a
single static child. -/
theorem TrieNode.insertSegs_stat_new (s : String) (rest : List String) (h : Nat)
    (hc : startsWithColon s = false) (hs : s ≠ "*") :
    TrieNode.insertSegs (s :: rest) h TrieNode.new =
      .mk [(s, TrieNode.insertSegs rest h TrieNode.new)] none none none := by
  simp [TrieNode.insertSegs, hc, hs, TrieNode.new, getAssoc, setAssoc]

/-- Inserting a param pattern head into an empty node creates a param child
named after the segment without its leading colon. -/
theorem TrieNode.insertSegs_par_new (seg : String) (rest : List String) (h : Nat)
    (hc : startsWithColon seg = true) :
    TrieNode.insertSegs (seg :: rest) h TrieNode.new =
      .mk [] (some (seg.drop 1, TrieNode.insertSegs rest h TrieNode.new)) none none := by
  simp [TrieNode.insertSegs, hc, TrieNode.new]

/-- Inserting a wildcard pattern head into an empty node creates a wildcard
child. -/
theorem TrieNode.insertSegs_wild_new (rest : List String) (h : Nat) :
    TrieNode.insertSegs ("*" :: rest) h TrieNode.new =
      .mk [] none (some (TrieNode.insertSegs rest h TrieNode.new)) none := by
  simp [TrieNode.insertSegs, TrieNode.new,
    (by decide : startsWithColon "*" = false)]

/-- Lookup through a node with a single static child matching the segment. -/
theorem TrieNode.findInternal_static_single (s : String) (c : TrieNode) (rest : List String)
    (params : RouteParams) :
    TrieNode.findInternal (.mk [(s, c)] none none none) (s :: rest) params =
      TrieNode.findInternal c rest params := by
  rw [TrieNode.findInternal_cons]
  have hs : staticAttempt (.mk [(s, c)] none none none) s rest params =
      TrieNode.findInternal c rest params := by
    unfold staticAttempt; simp [getAssoc]
  rw [hs]
  cases hr : TrieNode.findInternal c rest params with
  | some r => rfl
  | none => simp [paramAttempt, wildcardAttempt]

/-- Lookup through a node with only a param child binds the segment and
descends. -/
theorem TrieNode.findInternal_param_single (pname : String) (c : TrieNode) (seg : String)
    (rest : List String) (params : RouteParams) :
    TrieNode.findInternal (.mk [] (some (pname, c)) none none) (seg :: rest) params =
      TrieNode.findInternal c rest (params.insert pname seg) := by
  rw [TrieNode.findInternal_cons]
  have hs : staticAttempt (.mk [] (some (pname, c)) none none) seg rest params = none := by
    unfold staticAttempt; simp [getAssoc]
  have hp : paramAttempt (.mk [] (some (pname, c)) none none) seg rest params =
      TrieNode.findInternal c rest (params.insert pname seg) := by
    unfold paramAttempt; simp
  rw [hs, hp]
  cases hr : TrieNode.findInternal c rest (params.insert pname seg) with
  | some r => rfl
  | none => simp [wildcardAttempt]

/-- Lookup through a node with only a wildcard child returns that child's
handler with the joined remainder bound under `"*"`. -/
theorem TrieNode.findInternal_wild_single (wnode : TrieNode) (seg : String)
    (rest : List String) (params : RouteParams) :
    TrieNode.findInternal (.mk [] none (some wnode) none) (seg :: rest) params =
      wnode.handler_id.map (fun id =>
        (id, params.insert "*" (String.intercalate "/" (seg :: rest)))) := by
  rw [TrieNode.findInternal_cons]
  have hs : staticAttempt (.mk [] none (some wnode) none) seg rest params = none := by
    unfold staticAttempt; simp [getAssoc]
  have hp : paramAttempt (.mk [] none (some wnode) none) seg rest params = none := by
    unfold paramAttempt; simp
  rw [hs, hp]
  unfold wildcardAttempt
  simp

/-- The round trip for a single pattern inserted into an empty tree: looking
up any concrete path that matches the pattern returns the registered handler
together with exactly the expected bindings (appended to any incoming
params). -/
theorem roundTrip_aux (w : Option (List String)) (h : Nat)
    (hw : ∀ tail, w = some tail → tail ≠ []) :
    ∀ (pre : List PatSeg), (∀ ps ∈ pre, PatSeg.ok ps) →
    ∀ (params : RouteParams),
      TrieNode.findInternal (TrieNode.insertSegs (patSegsOf pre w) h TrieNode.new)
        (pathSegsOf pre w) params =
        some (h, ⟨(expectedBindings pre w).foldl (fun a kv => setAssoc a kv.1 kv.2)
          params.params⟩) := by
  intro pre
  induction pre with
  | nil =>
    intro _ params
    cases w with
    | none => rfl
    | some tail =>
      obtain ⟨t0, trest, rfl⟩ : ∃ a l, tail = a :: l := by
        cases tail with
        | nil => exact absurd rfl (hw [] rfl)
        | cons a l => exact ⟨a, l, rfl⟩
      show TrieNode.findInternal (TrieNode.insertSegs ["*"] h TrieNode.new) (t0 :: trest)
          params = _
      rw [TrieNode.insertSegs_wild_new, TrieNode.findInternal_wild_single]
      simp [TrieNode.insertSegs, expectedBindings, patBindings, RouteParams.insert]
  | cons ps pre ih =>
    intro hok params
    have hps : PatSeg.ok ps := hok ps (List.mem_cons_self ..)
    have hrest : ∀ q ∈ pre, PatSeg.ok q := fun q hq => hok q (List.mem_cons_of_mem _ hq)
    cases ps with
    | stat s =>
      obtain ⟨hcolon, hstar⟩ := hps
      show TrieNode.findInternal
          (TrieNode.insertSegs (s :: patSegsOf pre w) h TrieNode.new)
          (s :: pathSegsOf pre w) params = _
      rw [TrieNode.insertSegs_stat_new s _ h hcolon hstar,
        TrieNode.findInternal_static_single, ih hrest params]
      rfl
    | par seg val =>
      have hcolon : startsWithColon seg = true := hps
      show TrieNode.findInternal
          (TrieNode.insertSegs (seg :: patSegsOf pre w) h TrieNode.new)
          (val :: pathSegsOf pre w) params = _
      rw [TrieNode.insertSegs_par_new seg _ h hcolon,
        TrieNode.findInternal_param_single, ih hrest (params.insert (seg.drop 1) val)]
      rfl

end ZapNapi

open ZapNapi in
/-- Claim C10: No residual bindings from backtracking: whenever a lookup
succeeds, the returned parameter set is exactly the ordered bindings of the
matched route (one per param segment, plus the `"*"` capture when it ends in
a wildcard) applied to the empty set — bindings explored on failed
alternatives do not appear.  (`find` takes the tree immutably; in this pure
embedding lookup cannot mutate the trie.) -/
theorem c10_lookup_bindings_exact_no_residue :
    ∀ (t : TrieNode) (path : String) (id : Nat) (ps : RouteParams),
      t.find path = some (id, ps) →
      ∃ bs, MatchRoute t (splitPath path) id bs ∧
        ps = ⟨bs.foldl (fun a kv => setAssoc a kv.1 kv.2) []⟩ :=
  fun t path id ps hfind =>
    TrieNode.findInternal_exact_bindings (splitPath path) t RouteParams.new id ps hfind

open ZapNapi in
/-- Witness for C10: a lookup that explores and abandons a static branch
(`/users/me/profile`) still returns exactly the param binding of the matched
route. -/
theorem c10_lookup_bindings_exact_no_residue_witness :
    (TrieNode.find (routerRegister (routerRegister TrieNode.new "GET" "/users/me/profile" 1)
        "GET" "/users/:id" 2) "GET//users/me" = some (2, ⟨[("id", "me")]⟩))
    ∧ ∃ bs, MatchRoute (routerRegister (routerRegister TrieNode.new "GET" "/users/me/profile" 1)
        "GET" "/users/:id" 2) (splitPath "GET//users/me") 2 bs ∧
        (⟨[("id", "me")]⟩ : RouteParams) = ⟨bs.foldl (fun a kv => setAssoc a kv.1 kv.2) []⟩ :=
  ⟨by decide,
    c10_lookup_bindings_exact_no_residue
      (routerRegister (routerRegister TrieNode.new "GET" "/users/me/profile" 1)
        "GET" "/users/:id" 2) "GET//users/me" 2 ⟨[("id", "me")]⟩ (by decide)⟩

open ZapNapi in
/-- Claim C2: Insert/lookup round trip: for every valid pattern (well-formed
static and param segments, optional non-empty wildcard tail) inserted into an
empty tree, looking up a concrete path matching that pattern returns the
registered handler with exactly the expected bindings; concretely,
registering `GET /` returns `(7, {})` for `/`, and registering
`GET /posts/:id/comments/:commentId` returns
`{id: "456", commentId: "789"}` for `/posts/456/comments/789`. -/
theorem c2_insert_lookup_round_trip :
    (∀ (pre : List PatSeg) (w : Option (List String)) (h : Nat),
        (∀ ps ∈ pre, PatSeg.ok ps) →
        (∀ tail, w = some tail → tail ≠ []) →
        TrieNode.findInternal (TrieNode.insertSegs (patSegsOf pre w) h TrieNode.new)
          (pathSegsOf pre w) RouteParams.new =
          some (h, ⟨(expectedBindings pre w).foldl (fun a kv => setAssoc a kv.1 kv.2) []⟩))
    ∧ routerLookup (routerRegister TrieNode.new "GET" "/" 7) "GET" "/" = some (7, ⟨[]⟩)
    ∧ routerLookup (routerRegister TrieNode.new "GET" "/posts/:id/comments/:commentId" 8)
        "GET" "/posts/456/comments/789" =
        some (8, ⟨[("id", "456"), ("commentId", "789")]⟩) := by
  refine ⟨?_, by decide, by decide⟩
  intro pre w h hok hw
  exact roundTrip_aux w h hw pre hok RouteParams.new

open ZapNapi in
/-- Witness for C2: the pattern `users/:id` against the path `users/42`. -/
theorem c2_insert_lookup_round_trip_witness :
    TrieNode.findInternal
        (TrieNode.insertSegs (patSegsOf [PatSeg.stat "users", PatSeg.par ":id" "42"] none)
          5 TrieNode.new)
        (pathSegsOf [PatSeg.stat "users", PatSeg.par ":id" "42"] none) RouteParams.new =
      some (5, ⟨(expectedBindings [PatSeg.stat "users", PatSeg.par ":id" "42"] none).foldl
        (fun a kv => setAssoc a kv.1 kv.2) []⟩) :=
  c2_insert_lookup_round_trip.1 [PatSeg.stat "users", PatSeg.par ":id" "42"] none 5
    (by
      intro ps hps
      simp only [List.mem_cons, List.mem_singleton] at hps
      rcases hps with rfl | rfl | h
      · exact ⟨by decide, by decide⟩
      · exact (by decide : startsWithColon ":id" = true)
      · exact absurd h (List.not_mem_nil _))
    (fun tail ht => by cases ht)

open ZapNapi in
/-- Counterexample to claim C4: registration never fails.  Registering
`GET /a/:x` and then `GET /a/:y` leaves both calls successful and the table
changed — a lookup of `/a/7` now returns the *second* handler, with the value
bound under the *first* name `x`; and a non-final wildcard pattern
`GET /a/*/b` is accepted (the wildcard child is created and descended into),
producing a route that no lookup can reach. -/
theorem c4_counterexample_registration_never_fails :
    routerLookup (routerRegister TrieNode.new "GET" "/a/:x" 1) "GET" "/a/7" =
      some (1, ⟨[("x", "7")]⟩)
    ∧ routerLookup (routerRegister (routerRegister TrieNode.new "GET" "/a/:x" 1)
        "GET" "/a/:y" 2) "GET" "/a/7" = some (2, ⟨[("x", "7")]⟩)
    ∧ (Option.bind (Option.bind
        (getAssoc (routerRegister TrieNode.new "GET" "/a/*/b" 3).children "GET")
        (fun n => getAssoc n.children "a")) TrieNode.wildcard_child).isSome = true
    ∧ routerLookup (routerRegister TrieNode.new "GET" "/a/*/b" 3) "GET" "/a/z/b" = none :=
  ⟨by decide, by decide, by decide, by decide⟩

open ZapNapi in
/-- Claim C4, amended: `insert` performs no validation and never fails: a param
segment inserted at a node that already has a param child descends into that
child and keeps its original captured name (the new name is ignored), and a
`*` segment — final or not — descends into the (created if absent) wildcard
child, so a non-final wildcard is accepted rather than rejected with
`InvalidRoutePattern`. -/
theorem c4_amended_insert_never_fails_and_unifies_param_names :
    (∀ (n : TrieNode) (seg : String) (rest : List String) (h : Nat)
        (pname : String) (c : TrieNode),
        startsWithColon seg = true → n.param_child = some (pname, c) →
        TrieNode.insertSegs (seg :: rest) h n =
          .mk n.children (some (pname, TrieNode.insertSegs rest h c))
            n.wildcard_child n.handler_id)
    ∧ (∀ (n : TrieNode) (rest : List String) (h : Nat) (c : TrieNode),
        n.wildcard_child = some c →
        TrieNode.insertSegs ("*" :: rest) h n =
          .mk n.children n.param_child (some (TrieNode.insertSegs rest h c)) n.handler_id)
    ∧ (∀ (n : TrieNode) (rest : List String) (h : Nat),
        n.wildcard_child = none →
        TrieNode.insertSegs ("*" :: rest) h n =
          .mk n.children n.param_child (some (TrieNode.insertSegs rest h TrieNode.new))
            n.handler_id) := by
  refine ⟨?_, ?_, ?_⟩
  · intro n seg rest h pname c hc hp
    simp [TrieNode.insertSegs, hc, hp]
  · intro n rest h c hwc
    simp [TrieNode.insertSegs, (by decide : startsWithColon "*" = false), hwc]
  · intro n rest h hwc
    simp [TrieNode.insertSegs, (by decide : startsWithColon "*" = false), hwc]

open ZapNapi in
/-- Witness for the amended C4: inserting `:y` at a node whose param child is
named `x` keeps the name `x`. -/
theorem c4_amended_insert_never_fails_and_unifies_param_names_witness :
    TrieNode.insertSegs [":y"] 2 (TrieNode.mk [] (some ("x", TrieNode.new)) none none) =
      TrieNode.mk [] (some ("x", TrieNode.insertSegs [] 2 TrieNode.new)) none none :=
  c4_amended_insert_never_fails_and_unifies_param_names.1
    (TrieNode.mk [] (some ("x", TrieNode.new)) none none) ":y" [] 2 "x" TrieNode.new
    (by decide) rfl

/-- Claim C5: The error-hook pipeline tries hooks in registration order: the
first hook to succeed short-circuits with its response and later hooks do not
run; a hook's failure becomes the new current error handed to the next hook;
and when every hook fails the final (last-produced) error is returned.
Concretely, with a first hook that fails with `Internal "boom"` and a second
hook that succeeds, the second hook's response is returned and it observes
the first hook's failure, which is not surfaced to the caller. -/
theorem c5_error_hooks_first_success_short_circuits :
    (∀ (hook : Napi.Error → Except Napi.Error Napi.Response)
        (rest : List (Napi.Error → Except Napi.Error Napi.Response))
        (err : Napi.Error) (resp : Napi.Response),
        hook err = .ok resp → Napi.runErrorHooks (hook :: rest) err = .ok resp)
    ∧ (∀ (hook : Napi.Error → Except Napi.Error Napi.Response)
        (rest : List (Napi.Error → Except Napi.Error Napi.Response))
        (err e2 : Napi.Error),
        hook err = .error e2 → Napi.runErrorHooks (hook :: rest) err = Napi.runErrorHooks rest e2)
    ∧ (∀ (hooks : List (Napi.Error → Except Napi.Error Napi.Response)) (err : Napi.Error),
        (∀ hook ∈ hooks, ∀ e, ∃ e2, hook e = .error e2) →
        Napi.runErrorHooks hooks err = .error (Napi.foldFailures hooks err))
    ∧ Napi.runErrorHooks
        [fun _ => .error (.Internal "boom"),
         fun e => .ok ⟨502, e.display⟩] (.RouteNotFound "/x") =
        .ok ⟨502, "Internal error: boom"⟩ := by
  refine ⟨?_, ?_, ?_, by rfl⟩
  · intro hook rest err resp hok
    show (match hook err with
      | .ok resp => .ok resp
      | .error e => Napi.runErrorHooks rest e) = Except.ok resp
    rw [hok]
  · intro hook rest err e2 herr
    show (match hook err with
      | .ok resp => .ok resp
      | .error e => Napi.runErrorHooks rest e) = Napi.runErrorHooks rest e2
    rw [herr]
  · intro hooks
    induction hooks with
    | nil => intro err _; rfl
    | cons hook rest ih =>
      intro err hfail
      obtain ⟨e2, he2⟩ := hfail hook (List.mem_cons_self ..) err
      have hrest : ∀ h ∈ rest, ∀ e, ∃ e3, h e = .error e3 :=
        fun h hm e => hfail h (List.mem_cons_of_mem _ hm) e
      show (match hook err with
        | .ok resp => .ok resp
        | .error e => Napi.runErrorHooks rest e) =
          Except.error (Napi.foldFailures (hook :: rest) err)
      rw [he2]
      show Napi.runErrorHooks rest e2 = Except.error (Napi.foldFailures (hook :: rest) err)
      rw [ih e2 hrest]
      unfold Napi.foldFailures
      simp [he2]

/-- Witness for C5: a single always-failing hook hands its failure on. -/
theorem c5_error_hooks_first_success_short_circuits_witness :
    Napi.runErrorHooks [fun _ => .error (.Internal "z")] (.RouteNotFound "/a") =
      Napi.runErrorHooks [] (.Internal "z") :=
  c5_error_hooks_first_success_short_circuits.2.1
    (fun _ => .error (.Internal "z")) [] (.RouteNotFound "/a") (.Internal "z") rfl

namespace Zap

/-- Processing the reversed registration list makes the head middleware the
outermost wrapper. -/
theorem composeRev_append {ρ σ : Type} (xs : List (ρ → (ρ → σ) → σ))
    (m : ρ → (ρ → σ) → σ) (h : ρ → σ) :
    composeRev (xs ++ [m]) h = fun req => m req (composeRev xs h) := by
  induction xs generalizing h with
  | nil => rfl
  | cons x xs ih =>
    show composeRev (xs ++ [m]) (fun req => x req h) = fun req => m req (composeRev (x :: xs) h)
    rw [ih]
    rfl

/-- `execute` peels the earliest-registered middleware off as the outermost
wrapper. -/
theorem MiddlewareChain.execute_cons {ρ σ : Type} (m : ρ → (ρ → σ) → σ)
    (ms : List (ρ → (ρ → σ) → σ)) (req : ρ) (handler : ρ → σ) :
    MiddlewareChain.execute ⟨m :: ms⟩ req handler =
      m req (fun q => MiddlewareChain.execute ⟨ms⟩ q handler) := by
  unfold MiddlewareChain.execute
  simp only [List.reverse_cons, composeRev_append]

end Zap

/-- Claim C7: Middleware composition produces onion ordering: the chain is
built by folding in reverse registration order, so the earliest-registered
middleware is the outermost wrapper — `execute (m :: ms) req handler` runs
`m` first, with the rest of the chain as its continuation; for tracing
middlewares `m1` registered before `m2` around terminal handler `H`, the
observed trace is `m1:enter, m2:enter, H, m2:exit, m1:exit`. -/
theorem c7_middleware_onion_ordering :
    (∀ (ρ σ : Type) (m : ρ → (ρ → σ) → σ) (ms : List (ρ → (ρ → σ) → σ))
        (req : ρ) (handler : ρ → σ),
        Zap.MiddlewareChain.execute ⟨m :: ms⟩ req handler =
          m req (fun q => Zap.MiddlewareChain.execute ⟨ms⟩ q handler))
    ∧ Zap.MiddlewareChain.execute
        ⟨[fun req next => next (req ++ ["m1:enter"]) ++ ["m1:exit"],
          fun req next => next (req ++ ["m2:enter"]) ++ ["m2:exit"]]⟩
        ([] : List String) (fun req => req ++ ["H"]) =
        ["m1:enter", "m2:enter", "H", "m2:exit", "m1:exit"] :=
  ⟨fun _ _ m ms req handler => Zap.MiddlewareChain.execute_cons m ms req handler, by decide⟩

/-- Counterexample to claim C6: dispatch of an unregistered path with no error
hooks installed does *not* yield a 404-status Response — `Router::handle`
returns the unrecovered `RouteNotFound` error to its caller. -/
theorem c6_counterexample_unmatched_path_returns_error :
    Napi.Router.handle ⟨Napi.Store.new, none, none⟩ ⟨"GET", "/nope", none⟩ =
      Except.error (Napi.Error.RouteNotFound "/nope") := rfl

/-- Claim C6, amended: `Router::handle` propagates pre-routing hook failures
and `RouteNotFound` (and any route-step error) as `Err` without consulting
the error hooks; only an error produced by the middleware/handler stage is
recovered — through the error hooks when hooks are installed, or, with no
hooks installed, by a default Response whose status is the error's
`status_code` and whose body is `"Error: "` followed by the error's display
text.  The status mapping of the `napi-rs` error type used by `handle` is
RouteNotFound→404, InvalidRequest→400, Internal/HandlerError→500; the mapping
of the `zap_rs` error type (`src/error.rs`) is RouteNotFound→404,
InvalidRoutePattern→400, MiddlewareError/Internal→500 (that enum has no
ValidationError variant). -/
theorem c6_amended_handle_error_flow :
    (∀ (r : Napi.Router) (hooks : Napi.Hooks) (req : Napi.Request) (e : Napi.Error),
        r.hooks = some hooks → Napi.runPreRouting hooks.pre_routing req = .error e →
        r.handle req = .error e)
    ∧ (∀ (r : Napi.Router) (req : Napi.Request) (e : Napi.Error),
        r.hooks = none → r.routeStep req = .error e → r.handle req = .error e)
    ∧ (∀ (r : Napi.Router) (req : Napi.Request) (err : Napi.Error),
        r.hooks = none → r.middleware = none →
        (∃ h p, r.routeStep req = .ok (h, p) ∧ h req = .error err) →
        r.handle req = .ok ⟨err.statusCode, "Error: " ++ err.display⟩)
    ∧ (∀ (r : Napi.Router) (hooks : Napi.Hooks) (req : Napi.Request) (err : Napi.Error),
        r.hooks = some hooks → hooks.pre_routing = [] → r.middleware = none →
        (∃ h p, r.routeStep req = .ok (h, p) ∧ h req = .error err) →
        r.handle req = Napi.runErrorHooks hooks.error_hooks err)
    ∧ (∀ s : String,
        (Napi.Error.RouteNotFound s).statusCode = 404
        ∧ (Napi.Error.InvalidRequest s).statusCode = 400
        ∧ (Napi.Error.Internal s).statusCode = 500
        ∧ (Napi.Error.HandlerError s).statusCode = 500
        ∧ (Zap.Error.RouteNotFound s).statusCode = 404
        ∧ (Zap.Error.InvalidRoutePattern s).statusCode = 400
        ∧ (Zap.Error.MiddlewareError s).statusCode = 500
        ∧ (Zap.Error.Internal s).statusCode = 500) := by
  refine ⟨?_, ?_, ?_, ?_, ?_⟩
  · intro r hooks req e hh hpre
    simp [Napi.Router.handle, Napi.Hooks.executePreRouting, hh, hpre]
  · intro r req e hh hroute
    simp [Napi.Router.handle, hh, hroute]
  · intro r req err hh hmw hex
    obtain ⟨h, p, hroute, herr⟩ := hex
    simp [Napi.Router.handle, hh, hmw, hroute, herr]
  · intro r hooks req err hh hpre hmw hex
    obtain ⟨h, p, hroute, herr⟩ := hex
    simp [Napi.Router.handle, Napi.Hooks.executePreRouting, Napi.runPreRouting,
      Napi.Hooks.executeErrorHooks, hh, hpre, hmw, hroute, herr]
  · intro s
    exact ⟨rfl, rfl, rfl, rfl, rfl, rfl, rfl, rfl⟩

/-- Witness for the amended C6: a registered handler that fails with
`Internal "x"` on a router with no hooks yields the default 500 response. -/
theorem c6_amended_handle_error_flow_witness :
    Napi.Router.handle
        ⟨⟨[("GET", Napi.TrieNode.insert Napi.TrieNode.new "/err"
            (fun _ => Except.error (Napi.Error.Internal "x")))]⟩, none, none⟩
        ⟨"GET", "/err", none⟩ =
      .ok ⟨(Napi.Error.Internal "x").statusCode,
        "Error: " ++ (Napi.Error.Internal "x").display⟩ :=
  c6_amended_handle_error_flow.2.2.1
    ⟨⟨[("GET", Napi.TrieNode.insert Napi.TrieNode.new "/err"
        (fun _ => Except.error (Napi.Error.Internal "x")))]⟩, none, none⟩
    ⟨"GET", "/err", none⟩ (Napi.Error.Internal "x") rfl rfl
    ⟨fun _ => Except.error (Napi.Error.Internal "x"), ⟨[], []⟩, rfl, rfl⟩

namespace Napi

/-- The query-merging fold is the fold of the parsed `key=value` pairs. -/
theorem foldl_queryPairs (l : List String) (acc : List (String × String)) :
    l.foldl
      (fun acc pair =>
        match splitOnceEq pair with
        | some kv => setAssoc acc kv.1 kv.2
        | none => acc) acc =
    (l.filterMap splitOnceEq).foldl (fun a kv => setAssoc a kv.1 kv.2) acc := by
  induction l generalizing acc with
  | nil => rfl
  | cons x xs ih =>
    cases hx : splitOnceEq x with
    | none => simp [List.foldl_cons, List.filterMap_cons, hx, ih]
    | some kv => simp [List.foldl_cons, List.filterMap_cons, hx, ih]

end Napi

/-- Claim C8: On a successful route match, the route step captures the
`RouteParams` produced by the trie and merges every `key=value` pair of the
request's query string into the same per-request params value; the query
merge inserts the parsed pairs in order into `query_params` and never touches
`path_params`, so path and query bindings stay in separate maps of
`RouteParams` and are distinguishable.  Concretely, a request for a
registered `/search` route with query `q=test&page=1` yields query params
`{q: "test", page: "1"}` alongside the (empty) path params. -/
theorem c8_route_match_merges_query_params_separately :
    (∀ (r : Napi.Router) (req : Napi.Request) (h : Napi.Handler) (params : Napi.RouteParams),
        Napi.Store.lookup r.store req.path Napi.RouteParams.new = .ok (some h, params) →
        r.routeStep req = .ok (h, Napi.mergeQuery params req.query))
    ∧ (∀ (p : Napi.RouteParams) (q : Option String),
        (Napi.mergeQuery p q).path_params = p.path_params)
    ∧ (∀ (p : Napi.RouteParams) (q : String),
        (Napi.mergeQuery p (some q)).query_params =
          (Napi.queryPairs q).foldl (fun a kv => setAssoc a kv.1 kv.2) p.query_params)
    ∧ Napi.Router.routeStep
        ⟨⟨[("GET", Napi.TrieNode.insert Napi.TrieNode.new "/search"
            (fun _ => Except.ok (Napi.Response.new "found")))]⟩, none, none⟩
        ⟨"GET", "/search", some "q=test&page=1"⟩ =
        .ok (fun _ => Except.ok (Napi.Response.new "found"),
          ⟨[], [("q", "test"), ("page", "1")]⟩) := by
  refine ⟨?_, ?_, ?_, by rfl⟩
  · intro r req h params hl
    unfold Napi.Router.routeStep
    rw [hl]
  · intro p q
    cases q <;> rfl
  · intro p q
    show ((splitChar '&' q.toList).map (fun g => String.mk g)).foldl
        (fun acc pair =>
          match Napi.splitOnceEq pair with
          | some kv => setAssoc acc kv.1 kv.2
          | none => acc) p.query_params =
      (Napi.queryPairs q).foldl (fun a kv => setAssoc a kv.1 kv.2) p.query_params
    exact Napi.foldl_queryPairs _ _

/-- Witness for C8: the route-step characterization applied to a concrete
matched request with a query string. -/
theorem c8_route_match_merges_query_params_separately_witness :
    Napi.Router.routeStep
        ⟨⟨[("GET", Napi.TrieNode.insert Napi.TrieNode.new "/items"
            (fun _ => Except.ok (Napi.Response.new "items")))]⟩, none, none⟩
        ⟨"GET", "/items", some "a=1"⟩ =
      .ok (fun _ => Except.ok (Napi.Response.new "items"),
        Napi.mergeQuery ⟨[], []⟩ (some "a=1")) :=
  c8_route_match_merges_query_params_separately.1
    ⟨⟨[("GET", Napi.TrieNode.insert Napi.TrieNode.new "/items"
        (fun _ => Except.ok (Napi.Response.new "items")))]⟩, none, none⟩
    ⟨"GET", "/items", some "a=1"⟩
    (fun _ => Except.ok (Napi.Response.new "items")) ⟨[], []⟩ rfl

end Spec2Proof
